import Mathlib

/-!
# StealStickers — formal model of the core plugin logic

Shallow embedding of the StealStickers plugin (src/src/index.ts and the
companion source file).  JavaScript objects of interest are modelled by
explicit Lean datatypes; `undefined`/`null`/falsy fields are modelled with
`Option` (plus explicit truthiness tests matching the JS `&&`/`||`/`if`
guards); in-place mutation of the React tree is modelled by returning the
updated tree alongside the boolean result.
-/

namespace StealStickers

/-! ## Payload extraction (extractStickerInfo / buildStickerData) -/

/-- An input object as seen by `extractStickerInfo` (part_000 lines 28-57).
Sticker-record fields (`id`, `name`, `format_type`) live directly on the
object; the wrapper fields `sticker`, `message`, `stickerItems`,
`sticker_items`, `stickers` hold nested objects.  An absent (or falsy
non-string / non-number) field is `none`. -/
inductive Ctx : Type where
  | mk : Option String → Option String → Option Int →
         Option Ctx → Option Ctx →
         Option (List Ctx) → Option (List Ctx) → Option (List Ctx) → Ctx

def Ctx.id : Ctx → Option String
  | .mk i _ _ _ _ _ _ _ => i

def Ctx.name : Ctx → Option String
  | .mk _ n _ _ _ _ _ _ => n

def Ctx.format_type : Ctx → Option Int
  | .mk _ _ f _ _ _ _ _ => f

def Ctx.sticker : Ctx → Option Ctx
  | .mk _ _ _ s _ _ _ _ => s

def Ctx.message : Ctx → Option Ctx
  | .mk _ _ _ _ m _ _ _ => m

def Ctx.stickerItems : Ctx → Option (List Ctx)
  | .mk _ _ _ _ _ a _ _ => a

def Ctx.sticker_items : Ctx → Option (List Ctx)
  | .mk _ _ _ _ _ _ b _ => b

def Ctx.stickers : Ctx → Option (List Ctx)
  | .mk _ _ _ _ _ _ _ c => c

/-- JS truthiness of a string-valued field: present and non-empty
(`""` is falsy). -/
def truthyStr : Option String → Bool
  | some s => !(s = "")
  | none => false

/-- JS truthiness of a number-valued field: present and non-zero
(`0` is falsy). -/
def truthyInt : Option Int → Bool
  | some v => !(v = 0)
  | none => false

/-- JS truthiness of the guard `x && Array.isArray(x) && x.length > 0`. -/
def truthyArr : Option (List Ctx) → Bool
  | some l => !l.isEmpty
  | none => false

/-- JS truthiness of the guard `context.sticker && context.sticker.id`. -/
def truthySticker : Option Ctx → Bool
  | some s => truthyStr s.id
  | none => false

/-- First element of an array-valued field, when present. -/
def firstElem : Option (List Ctx) → Option Ctx
  | some (x :: _) => some x
  | _ => none

/-- Rendering of a possibly-absent string inside a JS template literal:
`undefined` prints as the string "undefined". -/
def jsStringOf : Option String → String
  | some s => s
  | none => "undefined"

/-- The descriptor built by `buildStickerData` (part_000 lines 80-86). -/
structure StickerData where
  id : Option String
  name : String
  url : String
  format : Int
  extension : String
deriving DecidableEq, Repr

/-- `buildStickerData` (part_000 lines 67-87): `format_type || 1`, a
switch mapping 1/2/3/4 to png/apng/json/gif with default png,
`name || "sticker"`, and the CDN URL template literal. -/
def buildStickerData (sticker : Ctx) : StickerData :=
  let formatType : Int :=
    match sticker.format_type with
    | some v => if v = 0 then 1 else v
    | none => 1
  let ext : String :=
    if formatType = 1 then "png"
    else if formatType = 2 then "apng"
    else if formatType = 3 then "json"
    else if formatType = 4 then "gif"
    else "png"
  { id := sticker.id
    name := match sticker.name with
      | some n => if n = "" then "sticker" else n
      | none => "sticker"
    url := "https://cdn.discordapp.com/stickers/" ++ jsStringOf sticker.id ++ "." ++ ext
    format := formatType
    extension := ext }

/-- `extractStickerInfo` (part_000 lines 28-57, identically repeated in
src/src/index.ts lines 327-356): the five-branch fall-through chain —
direct record, `sticker`, `stickerItems`, `sticker_items`, `stickers`. -/
def extractStickerInfo : Option Ctx → Option StickerData
  | none => none
  | some c =>
    if truthyStr c.id && truthyInt c.format_type then
      some (buildStickerData c)
    else if truthySticker c.sticker then
      c.sticker.map buildStickerData
    else if truthyArr c.stickerItems then
      (firstElem c.stickerItems).map buildStickerData
    else if truthyArr c.sticker_items then
      (firstElem c.sticker_items).map buildStickerData
    else if truthyArr c.stickers then
      (firstElem c.stickers).map buildStickerData
    else
      none

/-- The file name computed by `downloadSticker` (part_000 line 98):
`name.replace(/[^a-zA-Z0-9]/g, "_")` followed by `_id.extension`.
`String.map` over the character list keeps the definition kernel-reducible. -/
def downloadFilename (stickerInfo : StickerData) : String :=
  ⟨stickerInfo.name.data.map (fun ch =>
      if ('a' ≤ ch && ch ≤ 'z') || ('A' ≤ ch && ch ≤ 'Z') || ('0' ≤ ch && ch ≤ '9')
      then ch else '_')⟩
  ++ "_" ++ jsStringOf stickerInfo.id ++ "." ++ stickerInfo.extension

/-! ## The React tree seen by the splicer (walkTreeAndInject) -/

/-- A React-element-like tree as inspected by `walkTreeAndInject`
(src/src/index.ts lines 437-462).  `null` is any falsy node; otherwise a
node carries an optional appendable `props.options` array (`none` also
covers a present but non-array `options` value, which the code skips) and
a `props.children` field that is absent (`node0`), a single node
(`node1`), or an array of nodes (`nodeN`). -/
inductive RTree (α : Type) : Type where
  | null : RTree α
  | node0 (options : Option (List α)) : RTree α
  | node1 (options : Option (List α)) (child : RTree α) : RTree α
  | nodeN (options : Option (List α)) (children : List (RTree α)) : RTree α

mutual

/-- `walkTreeAndInject` (src/src/index.ts lines 437-462).  The in-place
`push` is modelled by returning the updated tree together with the boolean
result: `(b, t')` where `b` is the JS return value and `t'` the tree after
the call. -/
def walkTreeAndInject {α : Type} : RTree α → α → Nat → Bool × RTree α
  | RTree.null, _, _ => (false, RTree.null)
  | RTree.node0 opts, entry, depth =>
      if depth > 10 then (false, RTree.node0 opts)
      else
        match opts with
        | some os => (true, RTree.node0 (some (os ++ [entry])))
        | none => (false, RTree.node0 none)
  | RTree.node1 opts child, entry, depth =>
      if depth > 10 then (false, RTree.node1 opts child)
      else
        match opts with
        | some os => (true, RTree.node1 (some (os ++ [entry])) child)
        | none =>
            let r := walkTreeAndInject child entry (depth + 1)
            (r.1, RTree.node1 none r.2)
  | RTree.nodeN opts children, entry, depth =>
      if depth > 10 then (false, RTree.nodeN opts children)
      else
        match opts with
        | some os => (true, RTree.nodeN (some (os ++ [entry])) children)
        | none =>
            let r := walkListAndInject children entry (depth + 1)
            (r.1, RTree.nodeN none r.2)

/-- The `for (const child of tree.props.children)` loop of
`walkTreeAndInject`: try each child in order, stopping at the first
success. -/
def walkListAndInject {α : Type} : List (RTree α) → α → Nat → Bool × List (RTree α)
  | [], _, _ => (false, [])
  | t :: ts, entry, depth =>
      let r := walkTreeAndInject t entry depth
      if r.1 then (true, r.2 :: ts)
      else
        let r2 := walkListAndInject ts entry depth
        (r2.1, r.2 :: r2.2)

end

/-- `splice`: `walkTreeAndInject` started at its default depth 0, as in the
call site (src/src/index.ts line 512). -/
def splice {α : Type} (root : RTree α) (entry : α) : Bool × RTree α :=
  walkTreeAndInject root entry 0

mutual

/-- Observer: the appendable `options` collections of a tree within the
depth bound of `walkTreeAndInject`, listed in the pre-order the search
uses (a node's own collection first, then its children in order), with
the same `depth > 10` cut-off. -/
def optionsLists {α : Type} : RTree α → Nat → List (List α)
  | RTree.null, _ => []
  | RTree.node0 opts, depth => if depth > 10 then [] else opts.toList
  | RTree.node1 opts child, depth =>
      if depth > 10 then [] else opts.toList ++ optionsLists child (depth + 1)
  | RTree.nodeN opts children, depth =>
      if depth > 10 then [] else opts.toList ++ optionsListsAll children (depth + 1)

/-- Observer: `optionsLists` over a children array, in order. -/
def optionsListsAll {α : Type} : List (RTree α) → Nat → List (List α)
  | [], _ => []
  | t :: ts, depth => optionsLists t depth ++ optionsListsAll ts depth

end

/-- Observer: the `options` collection directly on the root node. -/
def rootOptions {α : Type} : RTree α → Option (List α)
  | RTree.null => none
  | RTree.node0 o => o
  | RTree.node1 o _ => o
  | RTree.nodeN o _ => o

mutual

/-- Observer: a tree cut to the given number of levels (0 levels = `null`).
Used to state that the depth-bounded search never looks below a fixed
number of levels. -/
def truncateDepth {α : Type} : Nat → RTree α → RTree α
  | 0, _ => RTree.null
  | _ + 1, RTree.null => RTree.null
  | _ + 1, RTree.node0 o => RTree.node0 o
  | n + 1, RTree.node1 o c => RTree.node1 o (truncateDepth n c)
  | n + 1, RTree.nodeN o cs => RTree.nodeN o (truncateDepthAll n cs)

/-- Observer: `truncateDepth` over a children array. -/
def truncateDepthAll {α : Type} : Nat → List (RTree α) → List (RTree α)
  | _, [] => []
  | n, t :: ts => truncateDepth n t :: truncateDepthAll n ts

end

/-! ## The sticker-detail patch callback -/

/-- An element of an `options` array: either an entry owned by the host
(opaque, tagged by a number), or the download action object built by the
patch callback (index.ts lines 500-506): a label plus the `onPress`
closure, represented by the `StickerData` it captures. -/
inductive ActionEntry : Type where
  | hostEntry : Nat → ActionEntry
  | downloadAction : String → StickerData → ActionEntry
deriving DecidableEq

/-- The download action object the callback injects. -/
def downloadActionOf (info : StickerData) : ActionEntry :=
  ActionEntry.downloadAction "📥 Download Sticker" info

/-- The payload-resolution chain of the patch callback (index.ts lines
487-489): `extractStickerInfo(props) || extractStickerInfo(props?.sticker)
|| extractStickerInfo(props?.message)`. -/
def resolvePayload (props : Option Ctx) : Option StickerData :=
  match extractStickerInfo props with
  | some d => some d
  | none =>
    match extractStickerInfo (props.bind Ctx.sticker) with
    | some d => some d
    | none => extractStickerInfo (props.bind Ctx.message)

/-- The body of the patch callback on the sticker detail sheet (index.ts
lines 480-528), with the in-place tree mutation made explicit: resolve the
payload; if absent return `res` unchanged; otherwise run
`walkTreeAndInject` on `res` and return the (possibly augmented) tree. -/
def sheetAugment (props : Option Ctx) (res : RTree ActionEntry) : RTree ActionEntry :=
  match resolvePayload props with
  | none => res
  | some info => (walkTreeAndInject res (downloadActionOf info) 0).2

/-- The try/catch wrapper around the patch callback body (index.ts lines
481-528): the body may raise (modelled by `Except`); an exception is
caught locally and the host's original return value `res` is passed
through. -/
def sheetAfterCallback
    (augment : Option Ctx → RTree ActionEntry → Except String (RTree ActionEntry))
    (props : Option Ctx) (res : RTree ActionEntry) : RTree ActionEntry :=
  match augment props res with
  | Except.ok r => r
  | Except.error _ => res

/-! ## Lifecycle: onUnload -/

/-- The process-wide plugin state: the `unpatches` array of interception
handles (handles modelled by numeric ids), together with a history
observer recording, in order, the ids whose reversal call completed. -/
structure PluginState where
  unpatches : List Nat
  reversed : List Nat
deriving DecidableEq, Repr

/-- The `for (const unpatch of patchesToClean)` loop of `onUnload`: invoke
every handle in order inside try/catch; `fails` tells which handles throw;
a throwing handle is swallowed and does not stop the loop.  Returns the
ids whose reversal completed, in order. -/
def runUnpatches (fails : Nat → Bool) : List Nat → List Nat
  | [] => []
  | h :: hs => (if fails h then [] else [h]) ++ runUnpatches fails hs

/-- `onUnload` (part_000 lines 277-291 / index.ts lines 284-298): copy the
handle list, clear the process-wide reference immediately, then invoke
every copied handle with per-handle failures swallowed. -/
def onUnload (fails : Nat → Bool) (st : PluginState) : PluginState :=
  let patchesToClean := st.unpatches
  { unpatches := []
    reversed := st.reversed ++ runUnpatches fails patchesToClean }

/-! ## Concrete demonstration inputs -/

/-- The example record `{id: "999", name: "Pug", format_type: 4}`. -/
def pugCtx : Ctx :=
  Ctx.mk (some "999") (some "Pug") (some 4) none none none none none

/-- A tree whose only `options` collection sits at depth 3 inside nested
`children` arrays. -/
def demoTree3 : RTree Nat :=
  RTree.nodeN none [RTree.nodeN none [RTree.nodeN none [RTree.node0 (some [5])]]]

/-- A tree whose only `options` collection sits at depth 11, one level
beyond the depth bound. -/
def demoTree11 : RTree Nat :=
  RTree.node1 none (RTree.node1 none (RTree.node1 none (RTree.node1 none
    (RTree.node1 none (RTree.node1 none (RTree.node1 none (RTree.node1 none
      (RTree.node1 none (RTree.node1 none (RTree.node1 none (RTree.node0 (some [5]))))))))))))

/-! ## Helper lemmas -/

mutual

/-- Core lemma: `walkTreeAndInject` returns `false` and leaves the tree
unchanged when no `options` collection lies within the depth bound, and
otherwise returns `true` having appended the entry to exactly the first
collection in the pre-order enumeration, leaving every other collection
untouched. -/
theorem walk_spec {α : Type} (t : RTree α) (e : α) (d : Nat) :
    (optionsLists t d = [] → walkTreeAndInject t e d = (false, t)) ∧
    (∀ L Ls, optionsLists t d = L :: Ls →
      (walkTreeAndInject t e d).1 = true ∧
      optionsLists (walkTreeAndInject t e d).2 d = (L ++ [e]) :: Ls) := by
  cases t with
  | null => simp [walkTreeAndInject, optionsLists]
  | node0 opts =>
    by_cases hd : d > 10
    · simp [walkTreeAndInject, optionsLists, hd]
    · cases opts with
      | none => simp [walkTreeAndInject, optionsLists, hd]
      | some os =>
        refine ⟨by simp [optionsLists, hd], ?_⟩
        intro L Ls h
        simp [optionsLists, hd] at h
        simp [walkTreeAndInject, optionsLists, hd, h.1, h.2]
  | node1 opts child =>
    by_cases hd : d > 10
    · simp [walkTreeAndInject, optionsLists, hd]
    · cases opts with
      | some os =>
        refine ⟨by simp [optionsLists, hd], ?_⟩
        intro L Ls h
        simp [optionsLists, hd] at h
        simp [walkTreeAndInject, optionsLists, hd, ← h.1, ← h.2]
      | none =>
        have ih := walk_spec child e (d + 1)
        constructor
        · intro h
          simp [optionsLists, hd] at h
          simp [walkTreeAndInject, hd, ih.1 h]
        · intro L Ls h
          simp [optionsLists, hd] at h
          have h2 := (ih.2) L Ls h
          simp [walkTreeAndInject, optionsLists, hd, h2.1, h2.2]
  | nodeN opts children =>
    by_cases hd : d > 10
    · simp [walkTreeAndInject, optionsLists, hd]
    · cases opts with
      | some os =>
        refine ⟨by simp [optionsLists, hd], ?_⟩
        intro L Ls h
        simp [optionsLists, hd] at h
        simp [walkTreeAndInject, optionsLists, hd, ← h.1, ← h.2]
      | none =>
        have ih := walkList_spec children e (d + 1)
        constructor
        · intro h
          simp [optionsLists, hd] at h
          simp [walkTreeAndInject, hd, ih.1 h]
        · intro L Ls h
          simp [optionsLists, hd] at h
          have h2 := (ih.2) L Ls h
          simp [walkTreeAndInject, optionsLists, hd, h2.1, h2.2]

/-- `walk_spec` for the children-array loop. -/
theorem walkList_spec {α : Type} (ts : List (RTree α)) (e : α) (d : Nat) :
    (optionsListsAll ts d = [] → walkListAndInject ts e d = (false, ts)) ∧
    (∀ L Ls, optionsListsAll ts d = L :: Ls →
      (walkListAndInject ts e d).1 = true ∧
      optionsListsAll (walkListAndInject ts e d).2 d = (L ++ [e]) :: Ls) := by
  cases ts with
  | nil => simp [walkListAndInject, optionsListsAll]
  | cons t ts =>
    have iht := walk_spec t e d
    have ihts := walkList_spec ts e d
    constructor
    · intro h
      simp only [optionsListsAll, List.append_eq_nil] at h
      have h1 := iht.1 h.1
      have h2 := ihts.1 h.2
      simp [walkListAndInject, h1, h2]
    · intro L Ls h
      simp only [optionsListsAll] at h
      cases hh : optionsLists t d with
      | nil =>
        rw [hh, List.nil_append] at h
        have h1 := iht.1 hh
        have h2 := (ihts.2) L Ls h
        simp [walkListAndInject, optionsListsAll, h1, h2.1, h2.2, hh]
      | cons L0 Ls0 =>
        rw [hh, List.cons_append] at h
        cases h
        have h1 := iht.2 _ _ hh
        simp [walkListAndInject, optionsListsAll, h1.1, h1.2]

end

mutual

/-- The depth-bounded search never looks below 11 levels: the boolean
result is unchanged when the tree is cut to `11 - d` levels. -/
theorem walk_truncate {α : Type} (t : RTree α) (e : α) (d : Nat) :
    (walkTreeAndInject t e d).1 = (walkTreeAndInject (truncateDepth (11 - d) t) e d).1 := by
  by_cases hd : d > 10
  · have h0 : 11 - d = 0 := by omega
    rw [h0]
    cases t <;> simp [walkTreeAndInject, truncateDepth, hd]
  · have h0 : 11 - d = (10 - d) + 1 := by omega
    have h1 : 10 - d = 11 - (d + 1) := by omega
    rw [h0]
    cases t with
    | null => simp [truncateDepth]
    | node0 o => simp [truncateDepth]
    | node1 o c =>
      cases o with
      | some os => simp [walkTreeAndInject, truncateDepth, hd]
      | none =>
        have ih := walk_truncate c e (d + 1)
        rw [← h1] at ih
        simp [walkTreeAndInject, truncateDepth, hd, ih]
    | nodeN o cs =>
      cases o with
      | some os => simp [walkTreeAndInject, truncateDepth, hd]
      | none =>
        have ih := walkList_truncate cs e (d + 1)
        rw [← h1] at ih
        simp [walkTreeAndInject, truncateDepth, hd, ih]

/-- `walk_truncate` for the children-array loop. -/
theorem walkList_truncate {α : Type} (ts : List (RTree α)) (e : α) (d : Nat) :
    (walkListAndInject ts e d).1 = (walkListAndInject (truncateDepthAll (11 - d) ts) e d).1 := by
  cases ts with
  | nil => simp [truncateDepthAll]
  | cons t ts =>
    have iht := walk_truncate t e d
    have ihts := walkList_truncate ts e d
    simp only [walkListAndInject, truncateDepthAll, ← iht, ← ihts]
    split <;> rfl

end

/-- `runUnpatches` keeps exactly the non-failing handles, in order. -/
theorem runUnpatches_eq_filter (fails : Nat → Bool) (l : List Nat) :
    runUnpatches fails l = l.filter (fun h => !(fails h)) := by
  induction l with
  | nil => rfl
  | cons h t ih => by_cases hf : fails h <;> simp [runUnpatches, List.filter, hf, ih]

/-! ## Claim theorems -/

/-- Claim C1: whenever `splice` (walkTreeAndInject) finds an appendable
`options` collection within the depth bound (i.e. the pre-order
enumeration `optionsLists` is non-empty), it returns `true` and appends
the entry to exactly the first collection discovered in pre-order —
the head of the enumeration becomes `L ++ [e]` (length N goes to N + 1)
while every other collection is unchanged; in particular when the root
itself exposes a collection, that collection receives the entry. -/
theorem splice_appends_first_preorder {α : Type} (t : RTree α) (e : α)
    (L : List α) (Ls : List (List α)) (h : optionsLists t 0 = L :: Ls) :
    (splice t e).1 = true ∧
    optionsLists (splice t e).2 0 = (L ++ [e]) :: Ls ∧
    (∀ os, rootOptions t = some os → rootOptions (splice t e).2 = some (os ++ [e])) := by
  have hs := (walk_spec t e 0).2 L Ls h
  refine ⟨hs.1, hs.2, ?_⟩
  intro os hos
  cases t with
  | null => simp [rootOptions] at hos
  | node0 o =>
    simp [rootOptions] at hos
    subst hos
    simp [splice, walkTreeAndInject, rootOptions]
  | node1 o c =>
    simp [rootOptions] at hos
    subst hos
    simp [splice, walkTreeAndInject, rootOptions]
  | nodeN o cs =>
    simp [rootOptions] at hos
    subst hos
    simp [splice, walkTreeAndInject, rootOptions]

/-- Witness for C1, on the tree whose only `options` collection sits at
depth 3 inside nested `children` arrays: `splice` succeeds and the
collection grows from length 1 to length 2. -/
theorem splice_appends_first_preorder_witness :
    optionsLists demoTree3 0 = [[5]] ∧
    (splice demoTree3 9).1 = true ∧
    optionsLists (splice demoTree3 9).2 0 = [[5, 9]] := by
  have h : optionsLists demoTree3 0 = [[5]] := by
    simp [demoTree3, optionsLists, optionsListsAll]
  have hs := splice_appends_first_preorder demoTree3 9 [5] [] h
  exact ⟨h, hs.1, by simpa using hs.2.1⟩

/-- Claim C2: on a tree with no appendable `options` collection within the
depth bound of 10 levels, `splice` returns `false` and returns the tree
exactly as it was — no entry inserted anywhere, no collection or
`children` field created on any node. -/
theorem splice_no_options_frame {α : Type} (t : RTree α) (e : α)
    (h : optionsLists t 0 = []) :
    splice t e = (false, t) :=
  (walk_spec t e 0).1 h

/-- Witness for C2, on the tree whose only `options` collection sits at
depth 11, one level beyond the bound. -/
theorem splice_no_options_frame_witness :
    optionsLists demoTree11 0 = [] ∧ splice demoTree11 9 = (false, demoTree11) := by
  have h : optionsLists demoTree11 0 = [] := by
    simp [demoTree11, optionsLists, optionsListsAll]
  exact ⟨h, splice_no_options_frame demoTree11 9 h⟩

/-- Claim C3: `buildStickerData` is total and deterministic; its extension
follows the fixed table (1 → png, 2 → apng, 3 → json, 4 → gif, anything
unrecognized or missing → png), and its URL is exactly the CDN prefix
followed by the record's id, a dot, and that extension — for every id,
including an absent one (rendered "undefined" by the template literal). -/
theorem buildStickerData_format_table (s : Ctx) :
    ((s.format_type = some 1 ∨ s.format_type = none) →
      (buildStickerData s).extension = "png") ∧
    (s.format_type = some 2 → (buildStickerData s).extension = "apng") ∧
    (s.format_type = some 3 → (buildStickerData s).extension = "json") ∧
    (s.format_type = some 4 → (buildStickerData s).extension = "gif") ∧
    (∀ k : Int, s.format_type = some k → k ≠ 1 → k ≠ 2 → k ≠ 3 → k ≠ 4 →
      (buildStickerData s).extension = "png") ∧
    (buildStickerData s).url =
      "https://cdn.discordapp.com/stickers/" ++ jsStringOf s.id ++ "." ++
        (buildStickerData s).extension := by
  refine ⟨?_, ?_, ?_, ?_, ?_, rfl⟩
  · rintro (h | h) <;> simp [buildStickerData, h]
  · intro h; simp [buildStickerData, h]
  · intro h; simp [buildStickerData, h]
  · intro h; simp [buildStickerData, h]
  · intro k hk h1 h2 h3 h4
    by_cases h0 : k = 0
    · simp [buildStickerData, hk, h0]
    · simp [buildStickerData, hk, h0, h1, h2, h3, h4]

/-- Witness for C3 on the record `{id: "999", name: "Pug", format_type: 4}`. -/
theorem buildStickerData_format_table_witness :
    Ctx.format_type pugCtx = some 4 ∧
    (buildStickerData pugCtx).extension = "gif" ∧
    (buildStickerData pugCtx).url = "https://cdn.discordapp.com/stickers/999.gif" := by
  have h := buildStickerData_format_table pugCtx
  refine ⟨rfl, h.2.2.2.1 rfl, ?_⟩
  rw [h.2.2.2.2.2]
  rfl

/-- Counterexample to claim C4 as stated: the record
`r = {id: "1", format_type: 0}` has a non-empty identifier and a
format-kind field, yet `extract(r)` yields no descriptor (the direct-shape
guard needs a truthy, non-zero format value) while `extract({sticker: r})`
yields one — so the five shapes do not agree on r. -/
theorem extract_shapes_counterexample :
    (truthyStr (Ctx.id (Ctx.mk (some "1") none (some 0) none none none none none)) = true ∧
     Ctx.format_type (Ctx.mk (some "1") none (some 0) none none none none none) = some 0) ∧
    extractStickerInfo (some (Ctx.mk (some "1") none (some 0) none none none none none)) = none ∧
    extractStickerInfo (some (Ctx.mk none none none
        (some (Ctx.mk (some "1") none (some 0) none none none none none)) none none none none)) =
      some (buildStickerData (Ctx.mk (some "1") none (some 0) none none none none none)) :=
  ⟨⟨rfl, rfl⟩, rfl, rfl⟩

/-- Claim C4 (amended: the record must carry a truthy — present and
non-zero — format-kind value, since JS `&&` treats `0` as falsy): for
every record r with a non-empty id and a truthy format-kind, `extract`
returns the same descriptor `some (buildStickerData r)` on all five
shapes: r itself, `{sticker: r}`, `{stickerItems: [r, ...]}`,
`{sticker_items: [r, ...]}`, and `{stickers: [r, ...]}`. -/
theorem extract_shapes_agree (r : Ctx) (rest₁ rest₂ rest₃ : List Ctx)
    (hid : truthyStr r.id = true) (hfmt : truthyInt r.format_type = true) :
    extractStickerInfo (some r) = some (buildStickerData r) ∧
    extractStickerInfo (some (Ctx.mk none none none (some r) none none none none)) =
      extractStickerInfo (some r) ∧
    extractStickerInfo (some (Ctx.mk none none none none none (some (r :: rest₁)) none none)) =
      extractStickerInfo (some r) ∧
    extractStickerInfo (some (Ctx.mk none none none none none none (some (r :: rest₂)) none)) =
      extractStickerInfo (some r) ∧
    extractStickerInfo (some (Ctx.mk none none none none none none none (some (r :: rest₃)))) =
      extractStickerInfo (some r) := by
  obtain ⟨i, n, f, s, m, a, b, c⟩ := r
  simp only [Ctx.id] at hid
  simp only [Ctx.format_type] at hfmt
  cases i with
  | none => simp [truthyStr] at hid
  | some si =>
    cases f with
    | none => simp [truthyInt] at hfmt
    | some fv =>
      simp [truthyStr] at hid
      simp [truthyInt] at hfmt
      have hdirect : extractStickerInfo (some (Ctx.mk (some si) n (some fv) s m a b c)) =
          some (buildStickerData (Ctx.mk (some si) n (some fv) s m a b c)) := by
        simp [extractStickerInfo, Ctx.id, Ctx.format_type, truthyStr, truthyInt, hid, hfmt]
      refine ⟨hdirect, ?_, ?_, ?_, ?_⟩ <;>
        simp [hdirect, extractStickerInfo, truthySticker, truthyArr, firstElem, truthyStr,
          truthyInt, Ctx.id, Ctx.format_type, Ctx.sticker, Ctx.stickerItems, Ctx.sticker_items,
          Ctx.stickers, hid, hfmt]

/-- Witness for the amended C4 on `{id: "999", name: "Pug", format_type: 4}`. -/
theorem extract_shapes_agree_witness :
    (truthyStr (Ctx.id pugCtx) = true ∧ truthyInt (Ctx.format_type pugCtx) = true) ∧
    extractStickerInfo (some pugCtx) = some (buildStickerData pugCtx) ∧
    extractStickerInfo (some (Ctx.mk none none none (some pugCtx) none none none none)) =
      extractStickerInfo (some pugCtx) ∧
    extractStickerInfo (some (Ctx.mk none none none none none (some [pugCtx]) none none)) =
      extractStickerInfo (some pugCtx) ∧
    extractStickerInfo (some (Ctx.mk none none none none none none (some [pugCtx]) none)) =
      extractStickerInfo (some pugCtx) ∧
    extractStickerInfo (some (Ctx.mk none none none none none none none (some [pugCtx]))) =
      extractStickerInfo (some pugCtx) :=
  ⟨⟨rfl, rfl⟩, extract_shapes_agree pugCtx [] [] [] rfl rfl⟩

/-- Claim C5: an exception raised inside the augmentation callback body is
caught locally — the wrapped callback always returns a value to the host —
and in the error case the host's original return value comes back
unmodified; when the body (the actual augmentation logic) does not raise,
its result is returned. -/
theorem sheetCallback_catches
    (augment : Option Ctx → RTree ActionEntry → Except String (RTree ActionEntry))
    (props : Option Ctx) (res : RTree ActionEntry) :
    (∀ msg, augment props res = Except.error msg → sheetAfterCallback augment props res = res) ∧
    sheetAfterCallback (fun p r => Except.ok (sheetAugment p r)) props res =
      sheetAugment props res := by
  constructor
  · intro msg h
    simp [sheetAfterCallback, h]
  · simp [sheetAfterCallback]

/-- Witness for C5: a body that always throws leaves the host value
untouched. -/
theorem sheetCallback_catches_witness :
    sheetAfterCallback (fun _ _ => Except.error "boom") none RTree.null = RTree.null :=
  (sheetCallback_catches (fun _ _ => Except.error "boom") none RTree.null).1 "boom" rfl

/-- Claim C6: `onUnload` takes the current handle set and clears the
process-wide reference, then attempts every taken handle independently
with failures swallowed (exactly the non-failing handles are reversed, in
order, regardless of which others fail); a second deactivation is a no-op
and no handle is ever reversed twice. -/
theorem onUnload_spec (fails : Nat → Bool) (st : PluginState) :
    (onUnload fails st).unpatches = [] ∧
    (onUnload fails st).reversed =
      st.reversed ++ st.unpatches.filter (fun h => !(fails h)) ∧
    onUnload fails (onUnload fails st) = onUnload fails st ∧
    (∀ h : Nat, (onUnload fails (onUnload fails st)).reversed.count h =
      st.reversed.count h + (st.unpatches.filter (fun h2 => !(fails h2))).count h) := by
  refine ⟨rfl, ?_, ?_, ?_⟩
  · simp [onUnload, runUnpatches_eq_filter]
  · simp [onUnload, runUnpatches]
  · intro h
    simp [onUnload, runUnpatches, runUnpatches_eq_filter, List.count_append]

/-- Claim C7: the callback resolves its payload by trying the extractor on
the first argument, then its `sticker` field, then its `message` field, in
that order with the first non-absent result winning; when all three are
absent the host's return value is passed through unchanged. -/
theorem sheetCallback_resolution_order (props : Option Ctx) (res : RTree ActionEntry) :
    (∀ d, extractStickerInfo props = some d → resolvePayload props = some d) ∧
    (extractStickerInfo props = none →
      ∀ d, extractStickerInfo (props.bind Ctx.sticker) = some d →
        resolvePayload props = some d) ∧
    (extractStickerInfo props = none → extractStickerInfo (props.bind Ctx.sticker) = none →
      resolvePayload props = extractStickerInfo (props.bind Ctx.message)) ∧
    (extractStickerInfo props = none → extractStickerInfo (props.bind Ctx.sticker) = none →
      extractStickerInfo (props.bind Ctx.message) = none → sheetAugment props res = res) := by
  refine ⟨?_, ?_, ?_, ?_⟩
  · intro d h; simp [resolvePayload, h]
  · intro h1 d h2; simp [resolvePayload, h1, h2]
  · intro h1 h2; simp [resolvePayload, h1, h2]
  · intro h1 h2 h3; simp [sheetAugment, resolvePayload, h1, h2, h3]

/-- Witness for C7: with no props at all, every extraction is absent and
the host's return value comes back unchanged. -/
theorem sheetCallback_resolution_order_witness :
    extractStickerInfo (none : Option Ctx) = none ∧
    sheetAugment none RTree.null = RTree.null :=
  ⟨rfl, (sheetCallback_resolution_order none RTree.null).2.2.2 rfl rfl rfl⟩

/-- Claim C8: the recursive search is depth-bounded — a call with depth
greater than 10, or on a null node, returns `false` immediately with the
tree unchanged, and the boolean outcome never depends on anything below
`11 - depth` levels of the tree (so the total function terminates by
construction on every input). -/
theorem walk_depth_bounded {α : Type} (t : RTree α) (e : α) (d : Nat) :
    (d > 10 → walkTreeAndInject t e d = (false, t)) ∧
    walkTreeAndInject (RTree.null : RTree α) e d = (false, RTree.null) ∧
    (walkTreeAndInject t e d).1 = (walkTreeAndInject (truncateDepth (11 - d) t) e d).1 := by
  refine ⟨?_, by simp [walkTreeAndInject], walk_truncate t e d⟩
  intro hd
  cases t <;> simp [walkTreeAndInject, hd]

/-- Witness for C8: at depth 11 the search refuses even a root with an
appendable collection. -/
theorem walk_depth_bounded_witness :
    walkTreeAndInject (RTree.node0 (some [5]) : RTree Nat) 9 11 =
      (false, RTree.node0 (some [5])) ∧
    (walkTreeAndInject (RTree.node0 (some [5]) : RTree Nat) 9 11).1 =
      (walkTreeAndInject (truncateDepth (11 - 11) (RTree.node0 (some [5]) : RTree Nat)) 9 11).1 := by
  have h := walk_depth_bounded (RTree.node0 (some [5]) : RTree Nat) 9 11
  exact ⟨h.1 (by norm_num), h.2.2⟩

/-- Claim C9: the download filename is the descriptor's display name with
every character outside [A-Za-z0-9] replaced by an underscore, followed by
an underscore, the id, a dot, and the file extension; on the descriptor of
`{id: "999", name: "Pug", format_type: 4}` it is "Pug_999.gif". -/
theorem downloadFilename_spec (d : StickerData) :
    downloadFilename d =
      String.mk (d.name.data.map (fun ch =>
        if ('A' ≤ ch && ch ≤ 'Z') || ('a' ≤ ch && ch ≤ 'z') || ('0' ≤ ch && ch ≤ '9')
        then ch else '_'))
      ++ "_" ++ jsStringOf d.id ++ "." ++ d.extension ∧
    downloadFilename (buildStickerData pugCtx) = "Pug_999.gif" := by
  constructor
  · have hb : ∀ a b c : Bool, (a || b || c) = (b || a || c) := by decide
    have hf : (fun ch : Char =>
        if ('a' ≤ ch && ch ≤ 'z') || ('A' ≤ ch && ch ≤ 'Z') || ('0' ≤ ch && ch ≤ '9')
        then ch else '_')
      = (fun ch : Char =>
        if ('A' ≤ ch && ch ≤ 'Z') || ('a' ≤ ch && ch ≤ 'z') || ('0' ≤ ch && ch ≤ '9')
        then ch else '_') := by
      funext ch
      rw [hb]
    unfold downloadFilename
    rw [hf]
  · rfl

/-- Claim C10: the nested-`sticker` shape is recognized from a truthy id
alone — the format then defaults to Static/png — while the direct-record
shape additionally demands a truthy format-kind; so a plain record with an
id but no format_type is extracted from `{sticker: r}` but not directly. -/
theorem extract_nested_sticker_lenient (r : Ctx)
    (hid : truthyStr r.id = true) (hfmt : r.format_type = none)
    (hsticker : r.sticker = none) (hitems : r.stickerItems = none)
    (hitems2 : r.sticker_items = none) (hstickers : r.stickers = none) :
    extractStickerInfo (some (Ctx.mk none none none (some r) none none none none)) =
      some (buildStickerData r) ∧
    (buildStickerData r).format = 1 ∧
    (buildStickerData r).extension = "png" ∧
    extractStickerInfo (some r) = none := by
  obtain ⟨i, n, f, s, m, a, b, c⟩ := r
  simp only [Ctx.id] at hid
  simp only [Ctx.format_type] at hfmt
  simp only [Ctx.sticker] at hsticker
  simp only [Ctx.stickerItems] at hitems
  simp only [Ctx.sticker_items] at hitems2
  simp only [Ctx.stickers] at hstickers
  subst hfmt hsticker hitems hitems2 hstickers
  cases i with
  | none => simp [truthyStr] at hid
  | some si =>
    simp [truthyStr] at hid
    refine ⟨?_, ?_, ?_, ?_⟩
    · simp [extractStickerInfo, truthySticker, truthyStr, truthyInt, Ctx.id, Ctx.sticker, hid]
    · simp [buildStickerData, Ctx.format_type]
    · simp [buildStickerData, Ctx.format_type]
    · simp [extractStickerInfo, truthyStr, truthyInt, truthySticker, truthyArr,
        Ctx.id, Ctx.format_type, Ctx.sticker, Ctx.stickerItems, Ctx.sticker_items, Ctx.stickers]

/-- Witness for C10 on the record `{id: "7"}`. -/
theorem extract_nested_sticker_lenient_witness :
    extractStickerInfo (some (Ctx.mk none none none
        (some (Ctx.mk (some "7") none none none none none none none)) none none none none)) =
      some (buildStickerData (Ctx.mk (some "7") none none none none none none none)) ∧
    extractStickerInfo (some (Ctx.mk (some "7") none none none none none none none)) = none :=
  have h := extract_nested_sticker_lenient
    (Ctx.mk (some "7") none none none none none none none) rfl rfl rfl rfl rfl rfl
  ⟨h.1, h.2.2.2⟩

end StealStickers
